import Mathlib

/-!
Verification of the ADMM solver in `include/Optimization/Convex/ADMM.h`.

Shallow embedding conventions:

* The C++ scalar type `double` is modelled by `ℚ` (exact real arithmetic on the
  rationals); the claims under scrutiny are about program structure, branch
  conditions and algebra, not about rounding.  Division by zero in `ℚ` yields
  `0`, as in Lean and Mathlib; one claim (C8) is specifically about the
  floating-point behaviour of unguarded zero denominators, and for it a
  dedicated non-finite-tracking model `FpD` of IEEE doubles is provided below.
* The C math function `sqrt` has no exact counterpart on `ℚ`; everywhere it is
  modelled by an explicit function parameter `sqrtf : ℚ → ℚ`.  Theorems that
  need facts about square roots state them as hypotheses on `sqrtf`
  (nonnegativity, vanishing on nonpositives, positivity on positives), all
  satisfied by the real square root.
* The template parameters `VariableX`, `VariableY`, `VariableR` are modelled by
  types `X`, `Y`, `R` carrying `AddCommGroup` and `Module ℚ` structure
  (addition, subtraction, scalar multiplication, as required by the source).
* The caller-supplied oracles `minLx`, `minLy`, the linear operators `A`, `B`,
  `At` and the two inner products are opaque function parameters.  The variadic
  `Args&...` pack forwarded unchanged to every call is absorbed into these
  closures (it is fixed for the duration of one solve call).
* The `Stopwatch` timing facility is declared in a header that is not part of
  the sources; it is modelled from the spec ("a monotonic clock providing a
  'start' token and an 'elapsed since start' query") as a function
  `clock : ℕ → ℚ` giving the elapsed time returned by the k-th `tock` query of
  a solve call.  No monotonicity is assumed; none of the claims requires it.
* `std::cout` output (`verbose`, `precision`) has no observable effect on the
  returned result and is omitted from the model.
-/

namespace Optimization
namespace Convex

/-- The strategy used to adapt the penalty parameter rho in the augmented
Lagrangian (source: `enum class ADMMPenaltyAdaptation`, lines 55-68). -/
inductive ADMMPenaltyAdaptation
  | None
  | Residual_Balance
  | Spectral
deriving DecidableEq

/-- Termination status of the algorithm (source: `enum class ADMMStatus`,
lines 148-160). -/
inductive ADMMStatus
  | RESIDUAL_TOLERANCE
  | ITERATION_LIMIT
  | ELAPSED_TIME
deriving DecidableEq

/-- The solver configuration (source: `struct ADMMParams`, lines 70-145).

The first three fields are inherited from the base `struct OptimizerParams`,
whose header is not among the sources.  Modelled from the spec: it carries the
generic budget/reporting controls `max_iterations`, `max_computation_time` and
`log_iterates` (plus `verbose`/`precision`, which only affect console output
and are omitted).  Their default values are not specified, so these fields have
no defaults here; the ADMM-specific fields keep the defaults of the source
(`0.2`, `1e-2`, `1e-3` written as exact rationals). -/
structure ADMMParams where
  max_iterations : ℕ
  max_computation_time : ℚ
  log_iterates : Bool
  rho : ℚ := 1
  penalty_adaptation_mode : ADMMPenaltyAdaptation := ADMMPenaltyAdaptation.None
  penalty_adaptation_period : ℕ := 2
  penalty_adaptation_window : ℕ := 1000
  residual_balance_mu : ℚ := 10
  residual_balance_tau : ℚ := 2
  spectral_penalty_minimum_correlation : ℚ := 1/5
  eps_abs_pri : ℚ := 1/100
  eps_abs_dual : ℚ := 1/100
  eps_rel : ℚ := 1/1000
deriving DecidableEq

/-- Output of the ADMM algorithm (source: `struct ADMMResult`, lines 162-178).

The fields `x` (the final iterate pair), `elapsed_time`, `time` and `iterates`
are inherited from the base `struct OptimizerResult<std::pair<VariableX,
VariableY>>`, whose header is not among the sources.  Modelled from the spec:
the result carries "ordered sequences (one entry per completed iteration) of
elapsed time, primal residual norm, dual residual norm, penalty parameter;
final (x,y) pair; total elapsed time; optional ordered sequence of (x,y)
snapshots, populated only if logging requested". -/
structure ADMMResult (X Y : Type) where
  status : ADMMStatus
  time : List ℚ
  iterates : List (X × Y)
  x : X × Y
  elapsed_time : ℚ
  primal_residuals : List ℚ
  dual_residuals : List ℚ
  penalty_parameters : List ℚ
deriving DecidableEq

/-- The local variables of the main ADMM loop (source lines 300-337): the
current iterates `x`, `y`, the previous `y` iterate, the dual variable
`lambda`, the current penalty `rho`, and the extra variables of the spectral
penalty estimation procedure (`lambda_hat` and the checkpoint
`x_k0, y_k0, lambda_k0, lambda_hat_k0`). -/
structure ADMMState (X Y R : Type) where
  x : X
  y : Y
  y_prev : Y
  lambda : R
  rho : ℚ
  lambda_hat : R
  x_k0 : X
  y_k0 : Y
  lambda_k0 : R
  lambda_hat_k0 : R
deriving DecidableEq

/-- Residual-balancing update of the penalty parameter (source lines 184-194,
translated verbatim). -/
def residual_balance_penalty_parameter_update (primal_residual dual_residual mu tau rho : ℚ) : ℚ :=
  if primal_residual > mu * dual_residual then tau * rho
  else if dual_residual > mu * primal_residual then rho / tau
  else rho

/-- Spectral (Barzilai-Borwein) update of the penalty parameter (source lines
201-283, translated verbatim; `sqrt` is the parameter `sqrtf`, the variadic
`args...` pack is absorbed into `inner_product`). -/
def spectral_penalty_parameter_update (sqrtf : ℚ → ℚ) {R : Type}
    (delta_lambda_hat delta_lambda delta_H_hat delta_G_hat : R)
    (inner_product : R → R → ℚ) (eps_cor rho : ℚ) : ℚ :=
  let delta_lambda_hat_delta_lambda_hat := inner_product delta_lambda_hat delta_lambda_hat
  let delta_H_hat_delta_lambda_hat := inner_product delta_H_hat delta_lambda_hat
  let delta_H_hat_delta_H_hat := inner_product delta_H_hat delta_H_hat
  let delta_lambda_delta_lambda := inner_product delta_lambda delta_lambda
  let delta_G_hat_delta_lambda := inner_product delta_G_hat delta_lambda
  let delta_G_hat_delta_G_hat := inner_product delta_G_hat delta_G_hat
  let alpha_SD := delta_lambda_hat_delta_lambda_hat / delta_H_hat_delta_lambda_hat
  let alpha_MG := delta_H_hat_delta_lambda_hat / delta_H_hat_delta_H_hat
  let beta_SD := delta_lambda_delta_lambda / delta_G_hat_delta_lambda
  let beta_MG := delta_G_hat_delta_lambda / delta_G_hat_delta_G_hat
  let alpha := if 2 * alpha_MG > alpha_SD then alpha_MG else alpha_SD - alpha_MG / 2
  let beta := if 2 * beta_MG > beta_SD then beta_MG else beta_SD - beta_MG / 2
  let delta_lambda_hat_norm := sqrtf delta_lambda_hat_delta_lambda_hat
  let alpha_cor := delta_H_hat_delta_lambda_hat /
      (sqrtf delta_H_hat_delta_H_hat * delta_lambda_hat_norm)
  let delta_lambda_norm := sqrtf delta_lambda_delta_lambda
  let beta_cor := delta_G_hat_delta_lambda /
      (sqrtf delta_G_hat_delta_G_hat * delta_lambda_norm)
  if alpha_cor > eps_cor ∧ beta_cor > eps_cor then sqrtf (alpha * beta)
  else if alpha_cor > eps_cor ∧ beta_cor ≤ eps_cor then alpha
  else if alpha_cor ≤ eps_cor ∧ beta_cor > eps_cor then beta
  else rho

/-- The six quantities `spectral_penalty_parameter_update` divides by, in
source order: the denominators of `alpha_SD` (line 237), `alpha_MG` (line 240),
`beta_SD` (line 245), `beta_MG` (line 248), `alpha_cor` (line 266) and
`beta_cor` (line 271). -/
def spectral_update_divisors (sqrtf : ℚ → ℚ) {R : Type}
    (delta_lambda_hat delta_lambda delta_H_hat delta_G_hat : R)
    (inner_product : R → R → ℚ) : List ℚ :=
  [inner_product delta_H_hat delta_lambda_hat,
   inner_product delta_H_hat delta_H_hat,
   inner_product delta_G_hat delta_lambda,
   inner_product delta_G_hat delta_G_hat,
   sqrtf (inner_product delta_H_hat delta_H_hat) *
     sqrtf (inner_product delta_lambda_hat delta_lambda_hat),
   sqrtf (inner_product delta_G_hat delta_G_hat) *
     sqrtf (inner_product delta_lambda delta_lambda)]


/-- The hybrid step size of eq. (27) (source line 256): the minimum-gradient
candidate when `2 * a_MG > a_SD`, and `a_SD - a_MG / 2` otherwise. -/
def hybrid_stepsize (a_MG a_SD : ℚ) : ℚ :=
  if 2 * a_MG > a_SD then a_MG else a_SD - a_MG / 2

/-- A computable stand-in for the square root on `ℚ`, used only to instantiate
witnesses: it satisfies the three facts about the real square root that the
theorems below assume of their `sqrtf` parameter (nonnegative everywhere, zero
on nonpositive arguments, positive on positive arguments), and it maps `1` to
`1` and `0` to `0`. -/
def sqrtQ_w (q : ℚ) : ℚ := if 0 < q then 1 else 0


/-- A model of an IEEE-754 double precise enough to track how non-finite
values arise from and propagate through the arithmetic of the spectral update:
`fin q` is a finite value (its rounding error abstracted away, as in the `ℚ`
model), `pinf` and `ninf` are the two infinities, `nan` is NaN.  Negative zero
is not modelled: the degenerate inputs of interest produce their zero
denominators as exact sums of products of nonnegative zeros, whose IEEE result
is `+0`. -/
inductive FpD
  | fin (q : ℚ)
  | pinf
  | ninf
  | nan
deriving DecidableEq

namespace FpD

/-- IEEE addition on the model. -/
def add : FpD → FpD → FpD
  | nan, _ => nan
  | _, nan => nan
  | fin a, fin b => fin (a + b)
  | fin _, pinf => pinf
  | pinf, fin _ => pinf
  | fin _, ninf => ninf
  | ninf, fin _ => ninf
  | pinf, pinf => pinf
  | ninf, ninf => ninf
  | pinf, ninf => nan
  | ninf, pinf => nan

/-- IEEE negation on the model. -/
def neg : FpD → FpD
  | nan => nan
  | fin a => fin (-a)
  | pinf => ninf
  | ninf => pinf

/-- IEEE subtraction on the model. -/
def sub (a b : FpD) : FpD := add a (neg b)

/-- IEEE multiplication on the model (`0 * inf = nan`). -/
def mul : FpD → FpD → FpD
  | nan, _ => nan
  | _, nan => nan
  | fin a, fin b => fin (a * b)
  | fin a, pinf => if 0 < a then pinf else if a < 0 then ninf else nan
  | pinf, fin a => if 0 < a then pinf else if a < 0 then ninf else nan
  | fin a, ninf => if 0 < a then ninf else if a < 0 then pinf else nan
  | ninf, fin a => if 0 < a then ninf else if a < 0 then pinf else nan
  | pinf, pinf => pinf
  | ninf, ninf => pinf
  | pinf, ninf => ninf
  | ninf, pinf => ninf

/-- IEEE division on the model.  A zero divisor is `+0` (negative zero is not
modelled), so a finite positive numerator gives `+inf`, a finite negative one
gives `-inf`, and `0/0` gives `nan`. -/
def div : FpD → FpD → FpD
  | nan, _ => nan
  | _, nan => nan
  | fin a, fin b =>
      if b = 0 then (if 0 < a then pinf else if a < 0 then ninf else nan)
      else fin (a / b)
  | fin _, pinf => fin 0
  | fin _, ninf => fin 0
  | pinf, fin b => if 0 ≤ b then pinf else ninf
  | ninf, fin b => if 0 ≤ b then ninf else pinf
  | pinf, pinf => nan
  | pinf, ninf => nan
  | ninf, pinf => nan
  | ninf, ninf => nan

/-- IEEE square root on the model; as everywhere in this development the exact
value on finite nonnegative arguments is supplied by a parameter
`sqrtf : ℚ → ℚ`. -/
def sqrtA (sqrtf : ℚ → ℚ) : FpD → FpD
  | nan => nan
  | pinf => pinf
  | ninf => nan
  | fin a => if a < 0 then nan else fin (sqrtf a)

/-- IEEE strict less-than: any comparison involving NaN is false. -/
def lt : FpD → FpD → Bool
  | nan, _ => false
  | _, nan => false
  | fin a, fin b => decide (a < b)
  | fin _, pinf => true
  | pinf, fin _ => false
  | ninf, fin _ => true
  | fin _, ninf => false
  | pinf, pinf => false
  | ninf, ninf => false
  | ninf, pinf => true
  | pinf, ninf => false

/-- IEEE less-or-equal: any comparison involving NaN is false. -/
def le : FpD → FpD → Bool
  | nan, _ => false
  | _, nan => false
  | fin a, fin b => decide (a ≤ b)
  | fin _, pinf => true
  | pinf, fin _ => false
  | ninf, fin _ => true
  | fin _, ninf => false
  | pinf, pinf => true
  | ninf, ninf => true
  | ninf, pinf => true
  | pinf, ninf => false

/-- Whether the modelled double is a finite value. -/
def isFinite : FpD → Bool
  | fin _ => true
  | _ => false

end FpD

/-- The spectral penalty update of source lines 201-283 once more, translated
operation for operation onto the non-finite-tracking double model `FpD`
(the C++ comparison `x > y` is `FpD.lt y x`, `x <= y` is `FpD.le x y`). -/
def FpD_spectral_penalty_parameter_update (sqrtf : ℚ → ℚ) {R : Type}
    (delta_lambda_hat delta_lambda delta_H_hat delta_G_hat : R)
    (inner_product : R → R → FpD) (eps_cor rho : FpD) : FpD :=
  let delta_lambda_hat_delta_lambda_hat := inner_product delta_lambda_hat delta_lambda_hat
  let delta_H_hat_delta_lambda_hat := inner_product delta_H_hat delta_lambda_hat
  let delta_H_hat_delta_H_hat := inner_product delta_H_hat delta_H_hat
  let delta_lambda_delta_lambda := inner_product delta_lambda delta_lambda
  let delta_G_hat_delta_lambda := inner_product delta_G_hat delta_lambda
  let delta_G_hat_delta_G_hat := inner_product delta_G_hat delta_G_hat
  let alpha_SD := FpD.div delta_lambda_hat_delta_lambda_hat delta_H_hat_delta_lambda_hat
  let alpha_MG := FpD.div delta_H_hat_delta_lambda_hat delta_H_hat_delta_H_hat
  let beta_SD := FpD.div delta_lambda_delta_lambda delta_G_hat_delta_lambda
  let beta_MG := FpD.div delta_G_hat_delta_lambda delta_G_hat_delta_G_hat
  let alpha := if FpD.lt alpha_SD (FpD.mul (FpD.fin 2) alpha_MG) then alpha_MG
      else FpD.sub alpha_SD (FpD.div alpha_MG (FpD.fin 2))
  let beta := if FpD.lt beta_SD (FpD.mul (FpD.fin 2) beta_MG) then beta_MG
      else FpD.sub beta_SD (FpD.div beta_MG (FpD.fin 2))
  let delta_lambda_hat_norm := FpD.sqrtA sqrtf delta_lambda_hat_delta_lambda_hat
  let alpha_cor := FpD.div delta_H_hat_delta_lambda_hat
      (FpD.mul (FpD.sqrtA sqrtf delta_H_hat_delta_H_hat) delta_lambda_hat_norm)
  let delta_lambda_norm := FpD.sqrtA sqrtf delta_lambda_delta_lambda
  let beta_cor := FpD.div delta_G_hat_delta_lambda
      (FpD.mul (FpD.sqrtA sqrtf delta_G_hat_delta_G_hat) delta_lambda_norm)
  if FpD.lt eps_cor alpha_cor && FpD.lt eps_cor beta_cor then
    FpD.sqrtA sqrtf (FpD.mul alpha beta)
  else if FpD.lt eps_cor alpha_cor && FpD.le beta_cor eps_cor then alpha
  else if FpD.le alpha_cor eps_cor && FpD.lt eps_cor beta_cor then beta
  else rho

/-- The dot product on `ℚ × ℚ`, as a caller-supplied inner product producing
finite doubles (its exact small-integer arithmetic incurs no rounding). -/
def fpDot (v w : ℚ × ℚ) : FpD := FpD.fin (v.1 * w.1 + v.2 * w.2)


section Solver

variable {X Y R : Type}
variable [AddCommGroup X] [Module ℚ X] [AddCommGroup Y] [Module ℚ Y]
variable [AddCommGroup R] [Module ℚ R]
variable (sqrtf : ℚ → ℚ)
variable (minLx : X → Y → R → ℚ → X) (minLy : X → Y → R → ℚ → Y)
variable (A : X → R) (B : Y → R) (At : R → X)
variable (inner_product_x : X → X → ℚ) (inner_product_r : R → R → ℚ)
variable (c : R) (params : ADMMParams) (clock : ℕ → ℚ)

/-- One iteration of the main ADMM loop after the elapsed-time test: source
lines 383-503, translated statement for statement.  `i` is the iteration
index, `elapsed_time` the value recorded at the start of this iteration, `st`
the loop variables at its start and `result` the output accumulated so far.
The returned Boolean is `true` exactly when the residual-based stopping
criterion fired (the `break` of line 455); the returned state holds the loop
variables as the iteration left them.  The hoisted constant `c_norm` of source
line 328 is recomputed in place, which is sound because `inner_product_r` and
`sqrtf` are pure. -/
def ADMM_iteration (i : ℕ) (elapsed_time : ℚ) (st : ADMMState X Y R)
    (result : ADMMResult X Y) : Bool × ADMMState X Y R × ADMMResult X Y :=
  let x := minLx st.x st.y st.lambda st.rho
  let y := minLy x st.y st.lambda st.rho
  let Ax := A x
  let By := B y
  let r := Ax + By - c
  let lambda_hat :=
    if params.penalty_adaptation_mode = ADMMPenaltyAdaptation.Spectral ∧
        i % params.penalty_adaptation_period = 0 ∧
        i < params.penalty_adaptation_window then
      st.lambda + st.rho • (Ax + B st.y_prev - c)
    else st.lambda_hat
  let lambda := st.lambda + st.rho • r
  let s := st.rho • At (B (y - st.y_prev))
  let primal_residual := sqrtf (inner_product_r r r)
  let dual_residual := sqrtf (inner_product_x s s)
  let result' : ADMMResult X Y :=
    { result with
      time := result.time ++ [elapsed_time]
      primal_residuals := result.primal_residuals ++ [primal_residual]
      dual_residuals := result.dual_residuals ++ [dual_residual]
      penalty_parameters := result.penalty_parameters ++ [st.rho]
      iterates :=
        if params.log_iterates then result.iterates ++ [(x, y)] else result.iterates }
  let Ax_norm := sqrtf (inner_product_r Ax Ax)
  let By_norm := sqrtf (inner_product_r By By)
  let c_norm := sqrtf (inner_product_r c c)
  let eps_primal := params.eps_abs_pri + params.eps_rel * max (max Ax_norm By_norm) c_norm
  let At_lambda := At lambda
  let At_lambda_norm := sqrtf (inner_product_x At_lambda At_lambda)
  let eps_dual := params.eps_abs_dual + params.eps_rel * At_lambda_norm
  let stMid : ADMMState X Y R :=
    { st with x := x, y := y, lambda := lambda, lambda_hat := lambda_hat }
  if primal_residual < eps_primal ∧ dual_residual < eps_dual then
    (true, stMid, { result' with status := ADMMStatus.RESIDUAL_TOLERANCE })
  else
    let st' : ADMMState X Y R :=
      if params.penalty_adaptation_mode ≠ ADMMPenaltyAdaptation.None ∧
          i % params.penalty_adaptation_period = 0 ∧
          i < params.penalty_adaptation_window then
        if params.penalty_adaptation_mode = ADMMPenaltyAdaptation.Residual_Balance then
          { stMid with
            rho := residual_balance_penalty_parameter_update primal_residual
              dual_residual params.residual_balance_mu params.residual_balance_tau
              st.rho }
        else if params.penalty_adaptation_mode = ADMMPenaltyAdaptation.Spectral then
          let delta_lambda := lambda - st.lambda_k0
          let delta_lambda_hat := lambda_hat - st.lambda_hat_k0
          let delta_H := -(A (x - st.x_k0))
          let delta_G := -(B (y - st.y_k0))
          { stMid with
            rho := spectral_penalty_parameter_update sqrtf delta_lambda_hat
              delta_lambda delta_H delta_G inner_product_r
              params.spectral_penalty_minimum_correlation st.rho
            x_k0 := x, y_k0 := y, lambda_k0 := lambda, lambda_hat_k0 := lambda_hat }
        else stMid
      else stMid
    (false, { st' with y_prev := y }, result')

/-- The main ADMM loop (source lines 371-505): `i` is the iteration index,
`fuel` the number of iterations still admitted by `max_iterations`.  Each pass
first records the elapsed time (`clock i` is the value returned by this solve
call's `i`-th `Stopwatch::tock` query) and tests the elapsed-time stopping
criterion, whose `break` leaves state and accumulated output untouched; the
rest of the iteration is `ADMM_iteration`.  Returns the accumulated output,
the final loop variables, and the index of the next `tock` query. -/
def ADMM_loop : ℕ → ℕ → ADMMState X Y R → ADMMResult X Y →
    ADMMResult X Y × ADMMState X Y R × ℕ
  | i, 0, st, result => (result, st, i)
  | i, fuel + 1, st, result =>
    let elapsed_time := clock i
    if elapsed_time > params.max_computation_time then
      ({ result with status := ADMMStatus.ELAPSED_TIME }, st, i + 1)
    else
      let out := ADMM_iteration sqrtf minLx minLy A B At inner_product_x
        inner_product_r c params i elapsed_time st result
      if out.1 then (out.2.2, out.2.1, i + 1)
      else ADMM_loop (i + 1) fuel out.2.1 out.2.2

/-- The ADMM solver (source lines 285-539).  Initialization follows lines
343-358: `lambda = rho*(A(x0)+B(y0)-c)`, and in `Spectral` mode the adaptation
checkpoint is snapshotted to the initial values.  `lambda_hat` and, outside
`Spectral` mode, the checkpoint variables are default-constructed in the
source and never read before being written; they are modelled as `0`.  The
output accumulator's `x` field (default-constructed in the source) is
overwritten on exit with the final iterate pair, and `elapsed_time` with the
final `tock` value (lines 507-509). -/
def ADMM (x0 : X) (y0 : Y) : ADMMResult X Y :=
  let rho := params.rho
  let lambda : R := rho • (A x0 + B y0 - c)
  let spectral := params.penalty_adaptation_mode = ADMMPenaltyAdaptation.Spectral
  let st0 : ADMMState X Y R :=
    { x := x0, y := y0, y_prev := y0, lambda := lambda, rho := rho
      lambda_hat := 0
      x_k0 := if spectral then x0 else 0
      y_k0 := if spectral then y0 else 0
      lambda_k0 := if spectral then lambda else 0
      lambda_hat_k0 := if spectral then lambda else 0 }
  let result0 : ADMMResult X Y :=
    { status := ADMMStatus.ITERATION_LIMIT
      time := []
      iterates := []
      x := (x0, y0)
      elapsed_time := 0
      primal_residuals := []
      dual_residuals := []
      penalty_parameters := [] }
  let out := ADMM_loop sqrtf minLx minLy A B At inner_product_x inner_product_r c
    params clock 0 params.max_iterations st0 result0
  { out.1 with x := (out.2.1.x, out.2.1.y), elapsed_time := clock out.2.2 }

end Solver

/-- The single-space convenience specialization of the ADMM interface (source
lines 545-558): one data type represents every variable, and the single inner
product is forwarded for both the x-space and the constraint-space roles. -/
def ADMM' {V : Type} [AddCommGroup V] [Module ℚ V] (sqrtf : ℚ → ℚ)
    (minLx : V → V → V → ℚ → V) (minLy : V → V → V → ℚ → V)
    (A : V → V) (B : V → V) (At : V → V) (inner_product : V → V → ℚ)
    (c : V) (params : ADMMParams) (clock : ℕ → ℚ) (x0 : V) (y0 : V) :
    ADMMResult V V :=
  ADMM sqrtf minLx minLy A B At inner_product inner_product c params clock x0 y0

/-- The predicate `RhoChain params i rho l` captures the penalty-parameter gating of source
lines 460-462: `l` is a possible suffix of the recorded penalty-parameter
sequence produced from iteration `i` onwards when the loop enters iteration
`i` with penalty `rho` — the entry recorded at an iteration is the penalty at
its start, and the next entry can differ only if the adaptation trigger
(`mode ≠ None` and `i % period = 0` and `i < window`) held. -/
inductive RhoChain (params : ADMMParams) : ℕ → ℚ → List ℚ → Prop
  | nil (i : ℕ) (rho : ℚ) : RhoChain params i rho []
  | cons (i : ℕ) (rho rho' : ℚ) (l : List ℚ)
      (hstep : ¬(params.penalty_adaptation_mode ≠ ADMMPenaltyAdaptation.None ∧
          i % params.penalty_adaptation_period = 0 ∧
          i < params.penalty_adaptation_window) → rho' = rho)
      (htail : RhoChain params (i + 1) rho' l) :
      RhoChain params i rho (rho :: l)

/-- C1: the residual-balancing update is a pure function of
(p, d, mu, tau, rho): for all p, d, mu > 1, tau > 1, rho > 0, if p > mu*d it
returns tau*rho; else if d > mu*p it returns rho/tau; otherwise it returns rho
unchanged. -/
theorem C1_residual_balance_update_cases (p d mu tau rho : ℚ)
    (hmu : 1 < mu) (htau : 1 < tau) (hrho : 0 < rho) :
    (p > mu * d → residual_balance_penalty_parameter_update p d mu tau rho = tau * rho) ∧
    (¬ p > mu * d → d > mu * p →
      residual_balance_penalty_parameter_update p d mu tau rho = rho / tau) ∧
    (¬ p > mu * d → ¬ d > mu * p →
      residual_balance_penalty_parameter_update p d mu tau rho = rho) := by
  unfold residual_balance_penalty_parameter_update
  refine ⟨fun h1 => ?_, fun h1 h2 => ?_, fun h1 h2 => ?_⟩ <;>
    split_ifs <;> first | rfl | exact absurd (by assumption) (by assumption)

/-- Witness for C1: a concrete instance of the first branch. -/
theorem C1_residual_balance_update_cases_w :
    (1:ℚ) < 2 ∧ (1:ℚ) < 2 ∧ (0:ℚ) < 1 ∧ (3:ℚ) > 2 * 0 ∧
      residual_balance_penalty_parameter_update 3 0 2 2 1 = 2 * 1 :=
  ⟨by norm_num, by norm_num, by norm_num, by norm_num,
    (C1_residual_balance_update_cases 3 0 2 2 1 (by norm_num) (by norm_num)
      (by norm_num)).1 (by norm_num)⟩

/-- C2: the spectral penalty update computes the hybrid step sizes as
alpha = alpha_MG if 2*alpha_MG > alpha_SD else alpha_SD - alpha_MG/2 (and beta
analogously), and then selects the returned rho by the correlation safeguard:
both correlations above eps_cor gives sqrt(alpha*beta); only alpha_cor passing
gives alpha; only beta_cor passing gives beta; neither passing returns the
current rho unchanged. -/
theorem C2_spectral_update_selection (sqrtf : ℚ → ℚ) {R : Type}
    (dlh dl dH dG : R) (ip : R → R → ℚ) (eps_cor rho : ℚ) :
    (ip dH dlh / (sqrtf (ip dH dH) * sqrtf (ip dlh dlh)) > eps_cor →
      ip dG dl / (sqrtf (ip dG dG) * sqrtf (ip dl dl)) > eps_cor →
      spectral_penalty_parameter_update sqrtf dlh dl dH dG ip eps_cor rho =
        sqrtf (hybrid_stepsize (ip dH dlh / ip dH dH) (ip dlh dlh / ip dH dlh) *
          hybrid_stepsize (ip dG dl / ip dG dG) (ip dl dl / ip dG dl))) ∧
    (ip dH dlh / (sqrtf (ip dH dH) * sqrtf (ip dlh dlh)) > eps_cor →
      ¬ ip dG dl / (sqrtf (ip dG dG) * sqrtf (ip dl dl)) > eps_cor →
      spectral_penalty_parameter_update sqrtf dlh dl dH dG ip eps_cor rho =
        hybrid_stepsize (ip dH dlh / ip dH dH) (ip dlh dlh / ip dH dlh)) ∧
    (¬ ip dH dlh / (sqrtf (ip dH dH) * sqrtf (ip dlh dlh)) > eps_cor →
      ip dG dl / (sqrtf (ip dG dG) * sqrtf (ip dl dl)) > eps_cor →
      spectral_penalty_parameter_update sqrtf dlh dl dH dG ip eps_cor rho =
        hybrid_stepsize (ip dG dl / ip dG dG) (ip dl dl / ip dG dl)) ∧
    (¬ ip dH dlh / (sqrtf (ip dH dH) * sqrtf (ip dlh dlh)) > eps_cor →
      ¬ ip dG dl / (sqrtf (ip dG dG) * sqrtf (ip dl dl)) > eps_cor →
      spectral_penalty_parameter_update sqrtf dlh dl dH dG ip eps_cor rho = rho) := by
  dsimp only [spectral_penalty_parameter_update, hybrid_stepsize]
  refine ⟨fun h1 h2 => ?_, fun h1 h2 => ?_, fun h1 h2 => ?_, fun h1 h2 => ?_⟩
  · rw [if_pos ⟨h1, h2⟩]
  · rw [if_neg (fun hc => h2 hc.2), if_pos ⟨h1, le_of_not_lt h2⟩]
  · rw [if_neg (fun hc => h1 hc.1), if_neg (fun hc => h1 hc.1),
      if_pos ⟨le_of_not_lt h1, h2⟩]
  · rw [if_neg (fun hc => h1 hc.1), if_neg (fun hc => h1 hc.1),
      if_neg (fun hc => h2 hc.2)]

/-- Witness for C2: a concrete instance of the both-correlations-pass branch. -/
theorem C2_spectral_update_selection_w :
    (1:ℚ) / (sqrtQ_w 1 * sqrtQ_w 1) > 1/5 ∧
      spectral_penalty_parameter_update sqrtQ_w (1:ℚ) 1 1 1 (fun a b => a * b)
        (1/5) 7 = 1 := by
  have h := C2_spectral_update_selection sqrtQ_w (1:ℚ) 1 1 1 (fun a b => a * b) (1/5) 7
  exact ⟨by norm_num [sqrtQ_w], (h.1 (by norm_num [sqrtQ_w]) (by norm_num [sqrtQ_w])).trans
    (by norm_num [sqrtQ_w, hybrid_stepsize])⟩

/-- C8: the spectral penalty update does not guard its denominators.  First
conjunct: when the four delta arguments are identically zero (as on a first
adaptation step where consecutive checkpoints coincide), every one of the six
quantities the function divides by is exactly zero.  Second conjunct: on the
non-finite-tracking double model, an input with `delta_H_hat` orthogonal to a
nonzero `delta_lambda_hat` (so that the `alpha_SD` division is a division by
zero) and an unvalidated correlation threshold of `-1` makes the update return
`+inf`: a non-finite rho is produced. -/
theorem C8_spectral_update_unguarded_divisions (sqrtf : ℚ → ℚ)
    (h0 : sqrtf 0 = 0) (h1 : sqrtf 1 = 1) :
    spectral_update_divisors sqrtf (0:ℚ) 0 0 0 (fun a b => a * b) = [0, 0, 0, 0, 0, 0] ∧
      FpD_spectral_penalty_parameter_update sqrtf ((0:ℚ), (1:ℚ)) ((1:ℚ), (0:ℚ))
        ((1:ℚ), (0:ℚ)) ((1:ℚ), (0:ℚ)) fpDot (FpD.fin (-1)) (FpD.fin 1) = FpD.pinf := by
  constructor
  · simp [spectral_update_divisors, h0]
  · simp only [FpD_spectral_penalty_parameter_update, fpDot]
    norm_num [FpD.div, FpD.mul, FpD.lt, FpD.le, FpD.sqrtA, FpD.sub, FpD.add, FpD.neg, h1]

/-- Witness for C8: the hypotheses hold for the identity as the stand-in
square root. -/
theorem C8_spectral_update_unguarded_divisions_w :
    (id (0:ℚ) = 0 ∧ id (1:ℚ) = 1) ∧
      (spectral_update_divisors id (0:ℚ) 0 0 0 (fun a b => a * b) = [0, 0, 0, 0, 0, 0] ∧
        FpD_spectral_penalty_parameter_update id ((0:ℚ), (1:ℚ)) ((1:ℚ), (0:ℚ))
          ((1:ℚ), (0:ℚ)) ((1:ℚ), (0:ℚ)) fpDot (FpD.fin (-1)) (FpD.fin 1) = FpD.pinf) :=
  ⟨⟨rfl, rfl⟩, C8_spectral_update_unguarded_divisions id rfl rfl⟩

/-- C9: the single-space convenience wrapper returns exactly the same result
(hence the same status, the same telemetry sequences and the same final (x,y)
pair) as the general three-space solver called with the same oracles,
operators, initial values and configuration, with the single inner product
supplied for both the x-space and constraint-space roles. -/
theorem C9_single_space_wrapper_equiv {V : Type} [AddCommGroup V] [Module ℚ V]
    (sqrtf : ℚ → ℚ) (minLx : V → V → V → ℚ → V) (minLy : V → V → V → ℚ → V)
    (A : V → V) (B : V → V) (At : V → V) (inner_product : V → V → ℚ)
    (c : V) (params : ADMMParams) (clock : ℕ → ℚ) (x0 : V) (y0 : V) :
    ADMM' sqrtf minLx minLy A B At inner_product c params clock x0 y0 =
      ADMM sqrtf minLx minLy A B At inner_product inner_product c params clock x0 y0 :=
  rfl

/-- The residual-balancing rule maps a positive penalty to a positive penalty
whenever the scale factor is positive. -/
theorem residual_balance_penalty_parameter_update_pos {p d mu tau rho : ℚ}
    (htau : 0 < tau) (hrho : 0 < rho) :
    0 < residual_balance_penalty_parameter_update p d mu tau rho := by
  unfold residual_balance_penalty_parameter_update
  split_ifs
  · exact mul_pos htau hrho
  · exact div_pos hrho htau
  · exact hrho

/-- The hybrid step size of eq. (27) is positive when both candidate step
sizes are. -/
theorem hybrid_stepsize_pos {aMG aSD : ℚ} (hMG : 0 < aMG) (hSD : 0 < aSD) :
    0 < if 2 * aMG > aSD then aMG else aSD - aMG / 2 := by
  split_ifs with h
  · exact hMG
  · push_neg at h
    linarith

/-- If a correlation quotient `w / (sqrtf u * sqrtf v)` exceeds a positive
threshold, then (for any `sqrtf` that is nonnegative and vanishes on
nonpositives) the numerator and both arguments of the square roots are
positive. -/
theorem cor_facts {eps : ℚ} (sqrtf : ℚ → ℚ)
    (hsq1 : ∀ q, 0 ≤ sqrtf q) (hsq2 : ∀ q, q ≤ 0 → sqrtf q = 0)
    (heps : 0 < eps) {u v w : ℚ} (h : eps < w / (sqrtf u * sqrtf v)) :
    0 < w ∧ 0 < u ∧ 0 < v := by
  have hprod : 0 < w / (sqrtf u * sqrtf v) := lt_trans heps h
  have hden : 0 < sqrtf u * sqrtf v := by
    rcases (mul_nonneg (hsq1 u) (hsq1 v)).lt_or_eq with h' | h'
    · exact h'
    · rw [← h', div_zero] at hprod
      exact absurd hprod (lt_irrefl 0)
  have hw : 0 < w := by
    rcases div_pos_iff.mp hprod with ⟨hw, _⟩ | ⟨_, hd⟩
    · exact hw
    · exact absurd hden (not_lt.mpr hd.le)
  have hu : 0 < sqrtf u := by
    rcases mul_pos_iff.mp hden with ⟨h1, _⟩ | ⟨h1, _⟩
    · exact h1
    · exact absurd h1 (not_lt.mpr (hsq1 u))
  have hv : 0 < sqrtf v := by
    rcases mul_pos_iff.mp hden with ⟨_, h2⟩ | ⟨_, h2⟩
    · exact h2
    · exact absurd h2 (not_lt.mpr (hsq1 v))
  refine ⟨hw, ?_, ?_⟩
  · by_contra hc
    rw [hsq2 u (le_of_not_lt hc)] at hu
    exact absurd hu (lt_irrefl 0)
  · by_contra hc
    rw [hsq2 v (le_of_not_lt hc)] at hv
    exact absurd hv (lt_irrefl 0)

/-- The spectral update maps a positive penalty to a positive penalty whenever
the correlation threshold is positive: an accepted spectral step is built from
step sizes whose positivity follows from the accepted correlation, and a
rejected one returns the incoming rho.  (In this exact-arithmetic model a
degenerate zero denominator makes the corresponding correlation zero, which a
positive threshold rejects.) -/
theorem spectral_penalty_parameter_update_pos (sqrtf : ℚ → ℚ)
    (hsq1 : ∀ q, 0 ≤ sqrtf q) (hsq2 : ∀ q, q ≤ 0 → sqrtf q = 0)
    (hsq3 : ∀ q, 0 < q → 0 < sqrtf q) {R : Type}
    (dlh dl dH dG : R) (ip : R → R → ℚ) {eps_cor rho : ℚ}
    (heps : 0 < eps_cor) (hrho : 0 < rho) :
    0 < spectral_penalty_parameter_update sqrtf dlh dl dH dG ip eps_cor rho := by
  simp only [spectral_penalty_parameter_update]
  by_cases hA : ip dH dlh / (sqrtf (ip dH dH) * sqrtf (ip dlh dlh)) > eps_cor <;>
    by_cases hB : ip dG dl / (sqrtf (ip dG dG) * sqrtf (ip dl dl)) > eps_cor
  · rw [if_pos ⟨hA, hB⟩]
    obtain ⟨ha2, ha3, ha1⟩ := cor_facts sqrtf hsq1 hsq2 heps hA
    obtain ⟨hb2, hb3, hb1⟩ := cor_facts sqrtf hsq1 hsq2 heps hB
    exact hsq3 _ (mul_pos
      (hybrid_stepsize_pos (div_pos ha2 ha3) (div_pos ha1 ha2))
      (hybrid_stepsize_pos (div_pos hb2 hb3) (div_pos hb1 hb2)))
  · rw [if_neg (fun hc => hB hc.2), if_pos ⟨hA, le_of_not_lt hB⟩]
    obtain ⟨ha2, ha3, ha1⟩ := cor_facts sqrtf hsq1 hsq2 heps hA
    exact hybrid_stepsize_pos (div_pos ha2 ha3) (div_pos ha1 ha2)
  · rw [if_neg (fun hc => hA hc.1), if_neg (fun hc => hA hc.1),
      if_pos ⟨le_of_not_lt hA, hB⟩]
    obtain ⟨hb2, hb3, hb1⟩ := cor_facts sqrtf hsq1 hsq2 heps hB
    exact hybrid_stepsize_pos (div_pos hb2 hb3) (div_pos hb1 hb2)
  · rw [if_neg (fun hc => hA hc.1), if_neg (fun hc => hA hc.1),
      if_neg (fun hc => hB hc.2)]
    exact hrho

section SolverTheorems

variable {X Y R : Type}
variable [AddCommGroup X] [Module ℚ X] [AddCommGroup Y] [Module ℚ Y]
variable [AddCommGroup R] [Module ℚ R]
variable (sqrtf : ℚ → ℚ)
variable (minLx : X → Y → R → ℚ → X) (minLy : X → Y → R → ℚ → Y)
variable (A : X → R) (B : Y → R) (At : R → X)
variable (inner_product_x : X → X → ℚ) (inner_product_r : R → R → ℚ)
variable (c : R) (params : ADMMParams) (clock : ℕ → ℚ)

/-- One iteration appends exactly one entry to each telemetry sequence: the
recorded elapsed time is the value sampled at the iteration's start, and the
recorded penalty parameter is the penalty the iteration started with (source
lines 427-431, before the penalty update of lines 458-499). -/
theorem ADMM_iteration_telemetry (i : ℕ) (t : ℚ) (st : ADMMState X Y R)
    (res : ADMMResult X Y) :
    ((ADMM_iteration sqrtf minLx minLy A B At inner_product_x inner_product_r c
        params i t st res).2.2.time = res.time ++ [t]) ∧
    ((ADMM_iteration sqrtf minLx minLy A B At inner_product_x inner_product_r c
        params i t st res).2.2.penalty_parameters =
      res.penalty_parameters ++ [st.rho]) ∧
    ((ADMM_iteration sqrtf minLx minLy A B At inner_product_x inner_product_r c
        params i t st res).2.2.primal_residuals.length =
      res.primal_residuals.length + 1) ∧
    ((ADMM_iteration sqrtf minLx minLy A B At inner_product_x inner_product_r c
        params i t st res).2.2.dual_residuals.length =
      res.dual_residuals.length + 1) := by
  unfold ADMM_iteration
  dsimp only
  split <;> simp

/-- The stopping flag determines the accumulated status: firing the residual
break marks the output `RESIDUAL_TOLERANCE`; otherwise the status is left as
it was. -/
theorem ADMM_iteration_status (i : ℕ) (t : ℚ) (st : ADMMState X Y R)
    (res : ADMMResult X Y) :
    (((ADMM_iteration sqrtf minLx minLy A B At inner_product_x inner_product_r c
        params i t st res).1 = true →
      (ADMM_iteration sqrtf minLx minLy A B At inner_product_x inner_product_r c
        params i t st res).2.2.status = ADMMStatus.RESIDUAL_TOLERANCE)) ∧
    (((ADMM_iteration sqrtf minLx minLy A B At inner_product_x inner_product_r c
        params i t st res).1 = false →
      (ADMM_iteration sqrtf minLx minLy A B At inner_product_x inner_product_r c
        params i t st res).2.2.status = res.status)) := by
  unfold ADMM_iteration
  dsimp only
  split <;> simp

/-- Outside the adaptation trigger (mode different from `None`, `i` a multiple
of the period, `i` below the window) an iteration leaves the penalty parameter
unchanged. -/
theorem ADMM_iteration_rho_of_not_trigger (i : ℕ) (t : ℚ) (st : ADMMState X Y R)
    (res : ADMMResult X Y)
    (h : ¬(params.penalty_adaptation_mode ≠ ADMMPenaltyAdaptation.None ∧
        i % params.penalty_adaptation_period = 0 ∧
        i < params.penalty_adaptation_window)) :
    (ADMM_iteration sqrtf minLx minLy A B At inner_product_x inner_product_r c
      params i t st res).2.1.rho = st.rho := by
  unfold ADMM_iteration
  dsimp only
  split
  · rfl
  · rfl

/-- An iteration maps a positive penalty parameter to a positive one, given
positive scale factor and correlation threshold and a square root that is
nonnegative, vanishes on nonpositives and is positive on positives. -/
theorem ADMM_iteration_rho_pos (i : ℕ) (t : ℚ) (st : ADMMState X Y R)
    (res : ADMMResult X Y)
    (htau : 0 < params.residual_balance_tau)
    (heps : 0 < params.spectral_penalty_minimum_correlation)
    (hsq1 : ∀ q, 0 ≤ sqrtf q) (hsq2 : ∀ q, q ≤ 0 → sqrtf q = 0)
    (hsq3 : ∀ q, 0 < q → 0 < sqrtf q) (hrho : 0 < st.rho) :
    0 < (ADMM_iteration sqrtf minLx minLy A B At inner_product_x inner_product_r c
      params i t st res).2.1.rho := by
  unfold ADMM_iteration
  dsimp only
  split
  · exact hrho
  · split
    · split
      · exact residual_balance_penalty_parameter_update_pos htau hrho
      · split
        · exact spectral_penalty_parameter_update_pos sqrtf hsq1 hsq2 hsq3 _ _ _ _
            inner_product_r heps hrho
        · exact hrho
    · exact hrho

/-- The base case of the loop: no fuel, nothing happens. -/
theorem ADMM_loop_zero (i : ℕ) (st : ADMMState X Y R) (acc : ADMMResult X Y) :
    ADMM_loop sqrtf minLx minLy A B At inner_product_x inner_product_r c params clock
      i 0 st acc = (acc, st, i) := rfl

/-- One unfolding of the loop: the elapsed-time test first, then the iteration
body, then either the residual break or the recursive call. -/
theorem ADMM_loop_succ (i fuel : ℕ) (st : ADMMState X Y R) (acc : ADMMResult X Y) :
    ADMM_loop sqrtf minLx minLy A B At inner_product_x inner_product_r c params clock
      i (fuel + 1) st acc =
    (if clock i > params.max_computation_time then
      ({ acc with status := ADMMStatus.ELAPSED_TIME }, st, i + 1)
    else if (ADMM_iteration sqrtf minLx minLy A B At inner_product_x inner_product_r
        c params i (clock i) st acc).1 = true then
      ((ADMM_iteration sqrtf minLx minLy A B At inner_product_x inner_product_r
          c params i (clock i) st acc).2.2,
        (ADMM_iteration sqrtf minLx minLy A B At inner_product_x inner_product_r
          c params i (clock i) st acc).2.1, i + 1)
    else
      ADMM_loop sqrtf minLx minLy A B At inner_product_x inner_product_r c params clock
        (i + 1) fuel
        (ADMM_iteration sqrtf minLx minLy A B At inner_product_x inner_product_r
          c params i (clock i) st acc).2.1
        (ADMM_iteration sqrtf minLx minLy A B At inner_product_x inner_product_r
          c params i (clock i) st acc).2.2) := rfl

/-- The residual-based stopping flag of an iteration fires exactly when the
primal residual norm is strictly below
`eps_abs_pri + eps_rel * max (norm Ax) (norm By) (norm c)` and the dual
residual norm is strictly below `eps_abs_dual + eps_rel * norm (At lambda)`,
with `lambda` the dual variable after this iteration's dual update. -/
theorem ADMM_iteration_stop_iff (i : ℕ) (t : ℚ) (st : ADMMState X Y R)
    (res : ADMMResult X Y) :
    ((ADMM_iteration sqrtf minLx minLy A B At inner_product_x inner_product_r c
        params i t st res).1 = true) ↔
      (let x := minLx st.x st.y st.lambda st.rho
       let y := minLy x st.y st.lambda st.rho
       let r := A x + B y - c
       let lambda := st.lambda + st.rho • r
       let s := st.rho • At (B (y - st.y_prev))
       sqrtf (inner_product_r r r) <
           params.eps_abs_pri + params.eps_rel *
             max (max (sqrtf (inner_product_r (A x) (A x)))
                 (sqrtf (inner_product_r (B y) (B y))))
               (sqrtf (inner_product_r c c)) ∧
         sqrtf (inner_product_x s s) <
           params.eps_abs_dual + params.eps_rel *
             sqrtf (inner_product_x (At lambda) (At lambda))) := by
  unfold ADMM_iteration
  dsimp only
  split_ifs with h <;> simp [h]

/-- The loop never shrinks the recorded elapsed-time sequence. -/
theorem ADMM_loop_time_len_mono (fuel : ℕ) :
    ∀ (i : ℕ) (st : ADMMState X Y R) (acc : ADMMResult X Y),
      acc.time.length ≤
        (ADMM_loop sqrtf minLx minLy A B At inner_product_x inner_product_r c params
          clock i fuel st acc).1.time.length := by
  induction fuel with
  | zero => intro i st acc; rw [ADMM_loop_zero]
  | succ fuel ih =>
    intro i st acc
    rw [ADMM_loop_succ]
    split_ifs with ht hstop
    · exact le_refl _
    · rw [(ADMM_iteration_telemetry sqrtf minLx minLy A B At inner_product_x
        inner_product_r c params i (clock i) st acc).1]
      simp
    · refine le_trans ?_ (ih (i + 1) _ _)
      rw [(ADMM_iteration_telemetry sqrtf minLx minLy A B At inner_product_x
        inner_product_r c params i (clock i) st acc).1]
      simp

/-- If the loop's result is marked `RESIDUAL_TOLERANCE` while the accumulator
was not, a residual break happened, which recorded at least one further
telemetry entry. -/
theorem ADMM_loop_RT_extends (fuel : ℕ) :
    ∀ (i : ℕ) (st : ADMMState X Y R) (acc : ADMMResult X Y),
      acc.status ≠ ADMMStatus.RESIDUAL_TOLERANCE →
      (ADMM_loop sqrtf minLx minLy A B At inner_product_x inner_product_r c params
        clock i fuel st acc).1.status = ADMMStatus.RESIDUAL_TOLERANCE →
      acc.time.length + 1 ≤
        (ADMM_loop sqrtf minLx minLy A B At inner_product_x inner_product_r c params
          clock i fuel st acc).1.time.length := by
  induction fuel with
  | zero =>
    intro i st acc hacc hs
    rw [ADMM_loop_zero] at hs ⊢
    exact absurd hs hacc
  | succ fuel ih =>
    intro i st acc hacc hs
    rw [ADMM_loop_succ] at hs ⊢
    split_ifs with ht hstop
    · rw [if_pos ht] at hs
      simp at hs
    · rw [if_neg ht, if_pos hstop] at hs
      rw [(ADMM_iteration_telemetry sqrtf minLx minLy A B At inner_product_x
        inner_product_r c params i (clock i) st acc).1]
      simp
    · rw [if_neg ht, if_neg hstop] at hs
      have hstat := ((ADMM_iteration_status sqrtf minLx minLy A B At inner_product_x
        inner_product_r c params i (clock i) st acc).2 (by
          cases hb : (ADMM_iteration sqrtf minLx minLy A B At inner_product_x
            inner_product_r c params i (clock i) st acc).1
          · rfl
          · exact absurd hb hstop))
      have h1 := ih (i + 1)
        (ADMM_iteration sqrtf minLx minLy A B At inner_product_x inner_product_r c
          params i (clock i) st acc).2.1
        (ADMM_iteration sqrtf minLx minLy A B At inner_product_x inner_product_r c
          params i (clock i) st acc).2.2
        (by rw [hstat]; exact hacc) hs
      refine le_trans ?_ h1
      rw [(ADMM_iteration_telemetry sqrtf minLx minLy A B At inner_product_x
        inner_product_r c params i (clock i) st acc).1]
      simp

/-- If the loop starts and ends with status `ITERATION_LIMIT`, no break
occurred: every admitted iteration ran and appended exactly one entry to each
telemetry sequence. -/
theorem ADMM_loop_IL_lengths (fuel : ℕ) :
    ∀ (i : ℕ) (st : ADMMState X Y R) (acc : ADMMResult X Y),
      acc.status = ADMMStatus.ITERATION_LIMIT →
      (ADMM_loop sqrtf minLx minLy A B At inner_product_x inner_product_r c params
        clock i fuel st acc).1.status = ADMMStatus.ITERATION_LIMIT →
      (ADMM_loop sqrtf minLx minLy A B At inner_product_x inner_product_r c params
          clock i fuel st acc).1.time.length = acc.time.length + fuel ∧
      (ADMM_loop sqrtf minLx minLy A B At inner_product_x inner_product_r c params
          clock i fuel st acc).1.primal_residuals.length =
        acc.primal_residuals.length + fuel ∧
      (ADMM_loop sqrtf minLx minLy A B At inner_product_x inner_product_r c params
          clock i fuel st acc).1.dual_residuals.length =
        acc.dual_residuals.length + fuel ∧
      (ADMM_loop sqrtf minLx minLy A B At inner_product_x inner_product_r c params
          clock i fuel st acc).1.penalty_parameters.length =
        acc.penalty_parameters.length + fuel := by
  induction fuel with
  | zero =>
    intro i st acc hacc hs
    rw [ADMM_loop_zero]
    exact ⟨rfl, rfl, rfl, rfl⟩
  | succ fuel ih =>
    intro i st acc hacc hs
    rw [ADMM_loop_succ] at hs ⊢
    split_ifs with ht hstop
    · rw [if_pos ht] at hs
      simp at hs
    · rw [if_neg ht, if_pos hstop] at hs
      have := (ADMM_iteration_status sqrtf minLx minLy A B At inner_product_x
        inner_product_r c params i (clock i) st acc).1 hstop
      rw [this] at hs
      simp at hs
    · rw [if_neg ht, if_neg hstop] at hs
      have hstat := (ADMM_iteration_status sqrtf minLx minLy A B At inner_product_x
        inner_product_r c params i (clock i) st acc).2 (by
          cases hb : (ADMM_iteration sqrtf minLx minLy A B At inner_product_x
            inner_product_r c params i (clock i) st acc).1
          · rfl
          · exact absurd hb hstop)
      obtain ⟨h1, h2, h3, h4⟩ := ih (i + 1)
        (ADMM_iteration sqrtf minLx minLy A B At inner_product_x inner_product_r c
          params i (clock i) st acc).2.1
        (ADMM_iteration sqrtf minLx minLy A B At inner_product_x inner_product_r c
          params i (clock i) st acc).2.2
        (by rw [hstat]; exact hacc) hs
      obtain ⟨g1, g2, g3, g4⟩ := ADMM_iteration_telemetry sqrtf minLx minLy A B At
        inner_product_x inner_product_r c params i (clock i) st acc
      refine ⟨?_, ?_, ?_, ?_⟩
      · rw [h1, g1]
        simp
        omega
      · rw [h2, g3]
        omega
      · rw [h3, g4]
        omega
      · rw [h4, g2]
        simp
        omega

/-- The penalty entries appended by a loop run form a `RhoChain` rooted at the
entry iteration and the entry penalty. -/
theorem ADMM_loop_rhoChain (fuel : ℕ) :
    ∀ (i : ℕ) (st : ADMMState X Y R) (acc : ADMMResult X Y),
      ∃ l, (ADMM_loop sqrtf minLx minLy A B At inner_product_x inner_product_r c
          params clock i fuel st acc).1.penalty_parameters =
        acc.penalty_parameters ++ l ∧ RhoChain params i st.rho l := by
  induction fuel with
  | zero =>
    intro i st acc
    exact ⟨[], by rw [ADMM_loop_zero]; simp, RhoChain.nil i st.rho⟩
  | succ fuel ih =>
    intro i st acc
    rw [ADMM_loop_succ]
    split_ifs with ht hstop
    · exact ⟨[], by simp, RhoChain.nil i st.rho⟩
    · refine ⟨[st.rho], ?_, ?_⟩
      · exact (ADMM_iteration_telemetry sqrtf minLx minLy A B At inner_product_x
          inner_product_r c params i (clock i) st acc).2.1
      · exact RhoChain.cons i st.rho st.rho [] (fun _ => rfl) (RhoChain.nil (i + 1) st.rho)
    · obtain ⟨l, hl, hchain⟩ := ih (i + 1)
        (ADMM_iteration sqrtf minLx minLy A B At inner_product_x inner_product_r c
          params i (clock i) st acc).2.1
        (ADMM_iteration sqrtf minLx minLy A B At inner_product_x inner_product_r c
          params i (clock i) st acc).2.2
      refine ⟨st.rho :: l, ?_, ?_⟩
      · rw [hl, (ADMM_iteration_telemetry sqrtf minLx minLy A B At inner_product_x
          inner_product_r c params i (clock i) st acc).2.1]
        simp
      · exact RhoChain.cons i st.rho _ l
          (fun hnt => ADMM_iteration_rho_of_not_trigger sqrtf minLx minLy A B At
            inner_product_x inner_product_r c params i (clock i) st acc hnt)
          hchain

/-- Every penalty entry recorded by the loop is positive, provided the entry
penalty and all previously recorded entries are, under the documented
parameter ranges and a square root with the three properties of the real one. -/
theorem ADMM_loop_rho_pos
    (htau : 0 < params.residual_balance_tau)
    (heps : 0 < params.spectral_penalty_minimum_correlation)
    (hsq1 : ∀ q, 0 ≤ sqrtf q) (hsq2 : ∀ q, q ≤ 0 → sqrtf q = 0)
    (hsq3 : ∀ q, 0 < q → 0 < sqrtf q) (fuel : ℕ) :
    ∀ (i : ℕ) (st : ADMMState X Y R) (acc : ADMMResult X Y),
      0 < st.rho → (∀ r0 ∈ acc.penalty_parameters, 0 < r0) →
      ∀ r0 ∈ (ADMM_loop sqrtf minLx minLy A B At inner_product_x inner_product_r c
          params clock i fuel st acc).1.penalty_parameters, 0 < r0 := by
  induction fuel with
  | zero =>
    intro i st acc hrho hacc
    rw [ADMM_loop_zero]
    exact hacc
  | succ fuel ih =>
    intro i st acc hrho hacc
    rw [ADMM_loop_succ]
    split_ifs with ht hstop
    · exact hacc
    · rw [(ADMM_iteration_telemetry sqrtf minLx minLy A B At inner_product_x
        inner_product_r c params i (clock i) st acc).2.1]
      intro r0 hr0
      rcases List.mem_append.mp hr0 with h | h
      · exact hacc r0 h
      · rw [List.mem_singleton.mp h]
        exact hrho
    · refine ih (i + 1) _ _ ?_ ?_
      · exact ADMM_iteration_rho_pos sqrtf minLx minLy A B At inner_product_x
          inner_product_r c params i (clock i) st acc htau heps hsq1 hsq2 hsq3 hrho
      · rw [(ADMM_iteration_telemetry sqrtf minLx minLy A B At inner_product_x
          inner_product_r c params i (clock i) st acc).2.1]
        intro r0 hr0
        rcases List.mem_append.mp hr0 with h | h
        · exact hacc r0 h
        · rw [List.mem_singleton.mp h]
          exact hrho

end SolverTheorems

/-- The first entry of a nonempty `RhoChain` is the penalty the chain was
entered with. -/
theorem RhoChain.head_eq {params : ADMMParams} {i : ℕ} {rho : ℚ} {l : List ℚ}
    (h : RhoChain params i rho l) (hne : l ≠ []) : l.head? = some rho := by
  cases h with
  | nil => exact absurd rfl hne
  | cons i rho rho' l hstep htail => rfl

/-- Along a `RhoChain`, consecutive entries agree whenever the adaptation
trigger does not hold at the earlier entry's iteration. -/
theorem RhoChain.get_succ_eq {params : ADMMParams} :
    ∀ {i : ℕ} {rho : ℚ} {l : List ℚ}, RhoChain params i rho l →
    ∀ (k : ℕ) (hk : k + 1 < l.length),
      ¬(params.penalty_adaptation_mode ≠ ADMMPenaltyAdaptation.None ∧
          (i + k) % params.penalty_adaptation_period = 0 ∧
          (i + k) < params.penalty_adaptation_window) →
      l.get ⟨k + 1, hk⟩ = l.get ⟨k, by omega⟩ := by
  intro i rho l h
  induction h with
  | nil => intro k hk _; simp at hk
  | cons i rho rho' l hstep htail ih =>
    intro k hk hnt
    match k with
    | 0 =>
      cases htail with
      | nil => simp at hk
      | cons j r r' l' hstep' htail' =>
        show rho' = rho
        rw [Nat.add_zero] at hnt
        exact hstep hnt
    | k + 1 =>
      have hk' : k + 1 < l.length := by simpa using hk
      have hnt' : ¬(params.penalty_adaptation_mode ≠ ADMMPenaltyAdaptation.None ∧
          ((i + 1) + k) % params.penalty_adaptation_period = 0 ∧
          ((i + 1) + k) < params.penalty_adaptation_window) := by
        intro hc
        refine hnt ⟨hc.1, ?_, ?_⟩
        · have : i + 1 + k = i + (k + 1) := by omega
          rw [this] at hc
          exact hc.2.1
        · have : i + 1 + k = i + (k + 1) := by omega
          rw [this] at hc
          exact hc.2.2
      exact ih k hk' hnt'

/-- In `None` mode the trigger never holds, so every entry of a `RhoChain`
equals the entry penalty. -/
theorem RhoChain.all_eq {params : ADMMParams}
    (hmode : params.penalty_adaptation_mode = ADMMPenaltyAdaptation.None) :
    ∀ {i : ℕ} {rho : ℚ} {l : List ℚ}, RhoChain params i rho l →
    ∀ (k : ℕ) (hk : k < l.length), l.get ⟨k, hk⟩ = rho := by
  intro i rho l h
  induction h with
  | nil => intro k hk; simp at hk
  | cons i rho rho' l hstep htail ih =>
    intro k hk
    match k with
    | 0 => rfl
    | k + 1 =>
      have hk' : k < l.length := by simpa using hk
      have hrho' : rho' = rho := hstep (fun hc => hc.1 hmode)
      show l.get ⟨k, hk'⟩ = rho
      rw [ih k hk', hrho']

section ClaimTheorems

variable {X Y R : Type}
variable [AddCommGroup X] [Module ℚ X] [AddCommGroup Y] [Module ℚ Y]
variable [AddCommGroup R] [Module ℚ R]
variable (sqrtf : ℚ → ℚ)
variable (minLx : X → Y → R → ℚ → X) (minLy : X → Y → R → ℚ → Y)
variable (A : X → R) (B : Y → R) (At : R → X)
variable (inner_product_x : X → X → ℚ) (inner_product_r : R → R → ℚ)
variable (c : R) (params : ADMMParams) (clock : ℕ → ℚ)

/-- C6: on every iteration the elapsed-time test is performed first: whenever
the elapsed time sampled at the top of an iteration exceeds
`max_computation_time`, the loop returns with status `ELAPSED_TIME`, the
accumulated output otherwise untouched (no telemetry appended) and the loop
variables exactly as they entered the iteration — in particular the result
does not depend on the x- or y-minimizer oracles for that iteration, so an
`ELAPSED_TIME` termination never leaves a partially executed iteration. -/
theorem C6_elapsed_time_break_first (i fuel : ℕ) (st : ADMMState X Y R)
    (acc : ADMMResult X Y) (h : clock i > params.max_computation_time) :
    ADMM_loop sqrtf minLx minLy A B At inner_product_x inner_product_r c params clock
      i (fuel + 1) st acc =
      ({ acc with status := ADMMStatus.ELAPSED_TIME }, st, i + 1) := by
  rw [ADMM_loop_succ, if_pos h]

/-- C5: an iteration of the solver (entered with a not-yet-converged
accumulator and surviving the elapsed-time test) terminates the loop with
status `RESIDUAL_TOLERANCE` exactly when the primal residual norm is strictly
below `eps_abs_pri + eps_rel * max (norm Ax) (norm By) (norm c)` and the dual
residual norm is strictly below `eps_abs_dual + eps_rel * norm (At lambda)`,
where `lambda` is the dual variable after this iteration's dual update
(termination at this iteration is expressed by the recorded telemetry having
grown by exactly this iteration's entry). -/
theorem C5_residual_tolerance_iff (i fuel : ℕ) (st : ADMMState X Y R)
    (acc : ADMMResult X Y)
    (hacc : acc.status ≠ ADMMStatus.RESIDUAL_TOLERANCE)
    (ht : ¬ clock i > params.max_computation_time) :
    ((ADMM_loop sqrtf minLx minLy A B At inner_product_x inner_product_r c params
        clock i (fuel + 1) st acc).1.status = ADMMStatus.RESIDUAL_TOLERANCE ∧
      (ADMM_loop sqrtf minLx minLy A B At inner_product_x inner_product_r c params
        clock i (fuel + 1) st acc).1.time.length = acc.time.length + 1) ↔
      (let x := minLx st.x st.y st.lambda st.rho
       let y := minLy x st.y st.lambda st.rho
       let r := A x + B y - c
       let lambda := st.lambda + st.rho • r
       let s := st.rho • At (B (y - st.y_prev))
       sqrtf (inner_product_r r r) <
           params.eps_abs_pri + params.eps_rel *
             max (max (sqrtf (inner_product_r (A x) (A x)))
                 (sqrtf (inner_product_r (B y) (B y))))
               (sqrtf (inner_product_r c c)) ∧
         sqrtf (inner_product_x s s) <
           params.eps_abs_dual + params.eps_rel *
             sqrtf (inner_product_x (At lambda) (At lambda))) := by
  rw [ADMM_loop_succ, if_neg ht]
  by_cases hstop : (ADMM_iteration sqrtf minLx minLy A B At inner_product_x
      inner_product_r c params i (clock i) st acc).1 = true
  · rw [if_pos hstop]
    constructor
    · intro _
      exact (ADMM_iteration_stop_iff sqrtf minLx minLy A B At inner_product_x
        inner_product_r c params i (clock i) st acc).mp hstop
    · intro _
      refine ⟨(ADMM_iteration_status sqrtf minLx minLy A B At inner_product_x
        inner_product_r c params i (clock i) st acc).1 hstop, ?_⟩
      rw [(ADMM_iteration_telemetry sqrtf minLx minLy A B At inner_product_x
        inner_product_r c params i (clock i) st acc).1]
      simp
  · rw [if_neg hstop]
    constructor
    · rintro ⟨hs, hlen⟩
      exfalso
      have hstat := (ADMM_iteration_status sqrtf minLx minLy A B At inner_product_x
        inner_product_r c params i (clock i) st acc).2 (by
          cases hb : (ADMM_iteration sqrtf minLx minLy A B At inner_product_x
            inner_product_r c params i (clock i) st acc).1
          · rfl
          · exact absurd hb hstop)
      have hext := ADMM_loop_RT_extends sqrtf minLx minLy A B At inner_product_x
        inner_product_r c params clock fuel (i + 1)
        (ADMM_iteration sqrtf minLx minLy A B At inner_product_x inner_product_r c
          params i (clock i) st acc).2.1
        (ADMM_iteration sqrtf minLx minLy A B At inner_product_x inner_product_r c
          params i (clock i) st acc).2.2
        (by rw [hstat]; exact hacc) hs
      rw [(ADMM_iteration_telemetry sqrtf minLx minLy A B At inner_product_x
        inner_product_r c params i (clock i) st acc).1] at hext
      rw [hlen] at hext
      simp at hext
    · intro hcond
      exact absurd ((ADMM_iteration_stop_iff sqrtf minLx minLy A B At inner_product_x
        inner_product_r c params i (clock i) st acc).mpr hcond) hstop

/-- C3: for every configuration with a positive initial rho (and the
documented parameter ranges: positive scale factor tau, positive correlation
threshold) and every adaptation mode, the penalty parameter is strictly
positive at the start of every iteration of the solver loop — the recorded
penalty-parameter sequence holds exactly these start-of-iteration values.  The
hypotheses on `sqrtf` are the three facts of the real square root this needs;
in this exact-arithmetic embedding the degenerate spectral case (zero
denominators) also preserves positivity, because the zero correlations it
produces are rejected by the positive threshold. -/
theorem C3_rho_positive_invariant (x0 : X) (y0 : Y)
    (hrho0 : 0 < params.rho)
    (htau : 0 < params.residual_balance_tau)
    (heps : 0 < params.spectral_penalty_minimum_correlation)
    (hsq1 : ∀ q, 0 ≤ sqrtf q) (hsq2 : ∀ q, q ≤ 0 → sqrtf q = 0)
    (hsq3 : ∀ q, 0 < q → 0 < sqrtf q) :
    ∀ r0 ∈ (ADMM sqrtf minLx minLy A B At inner_product_x inner_product_r c params
      clock x0 y0).penalty_parameters, 0 < r0 := by
  unfold ADMM
  dsimp only
  exact ADMM_loop_rho_pos sqrtf minLx minLy A B At inner_product_x inner_product_r c
    params clock htau heps hsq1 hsq2 hsq3 params.max_iterations 0 _ _ hrho0 (by simp)

/-- C4: with any adaptation mode other than `None` and a positive period, the
recorded penalty parameter changes from one iteration to the next only when
the earlier iteration `k` satisfies `k % period = 0` and `k < window`, and is
unchanged across every other iteration; with mode `None` every recorded
penalty parameter equals the configured initial rho.  (The source computes
`i % period` on an unsigned period, which is undefined for a zero period,
hence the positivity hypothesis.) -/
theorem C4_adaptation_gating (x0 : X) (y0 : Y)
    (hper : 0 < params.penalty_adaptation_period) :
    (params.penalty_adaptation_mode ≠ ADMMPenaltyAdaptation.None →
      ∀ (k : ℕ) (hk : k + 1 < (ADMM sqrtf minLx minLy A B At inner_product_x
          inner_product_r c params clock x0 y0).penalty_parameters.length),
        ¬(k % params.penalty_adaptation_period = 0 ∧
            k < params.penalty_adaptation_window) →
        (ADMM sqrtf minLx minLy A B At inner_product_x inner_product_r c params
            clock x0 y0).penalty_parameters.get ⟨k + 1, hk⟩ =
          (ADMM sqrtf minLx minLy A B At inner_product_x inner_product_r c params
            clock x0 y0).penalty_parameters.get ⟨k, by omega⟩) ∧
    (params.penalty_adaptation_mode = ADMMPenaltyAdaptation.None →
      ∀ (k : ℕ) (hk : k < (ADMM sqrtf minLx minLy A B At inner_product_x
          inner_product_r c params clock x0 y0).penalty_parameters.length),
        (ADMM sqrtf minLx minLy A B At inner_product_x inner_product_r c params
          clock x0 y0).penalty_parameters.get ⟨k, hk⟩ = params.rho) := by
  obtain ⟨l, hl, hchain⟩ := ADMM_loop_rhoChain sqrtf minLx minLy A B At
    inner_product_x inner_product_r c params clock params.max_iterations 0
    { x := x0, y := y0, y_prev := y0,
      lambda := params.rho • (A x0 + B y0 - c), rho := params.rho
      lambda_hat := 0
      x_k0 := if params.penalty_adaptation_mode = ADMMPenaltyAdaptation.Spectral
        then x0 else 0
      y_k0 := if params.penalty_adaptation_mode = ADMMPenaltyAdaptation.Spectral
        then y0 else 0
      lambda_k0 := if params.penalty_adaptation_mode = ADMMPenaltyAdaptation.Spectral
        then params.rho • (A x0 + B y0 - c) else 0
      lambda_hat_k0 :=
        if params.penalty_adaptation_mode = ADMMPenaltyAdaptation.Spectral
        then params.rho • (A x0 + B y0 - c) else 0 }
    { status := ADMMStatus.ITERATION_LIMIT, time := [], iterates := [], x := (x0, y0)
      elapsed_time := 0, primal_residuals := [], dual_residuals := []
      penalty_parameters := [] }
  have hEq : (ADMM sqrtf minLx minLy A B At inner_product_x inner_product_r c params
      clock x0 y0).penalty_parameters = l := by
    rw [show (ADMM sqrtf minLx minLy A B At inner_product_x inner_product_r c params
      clock x0 y0).penalty_parameters = _ ++ l from hl]
    simp
  constructor
  · intro hmode k hk hnt
    rw [List.get_of_eq hEq, List.get_of_eq hEq]
    exact RhoChain.get_succ_eq hchain k (by rw [← hEq]; exact hk)
      (fun hc => hnt ⟨by simpa using hc.2.1, by simpa using hc.2.2⟩)
  · intro hmode k hk
    rw [List.get_of_eq hEq]
    exact RhoChain.all_eq hmode hchain k (by rw [← hEq]; exact hk)

/-- C7: every solve call produces exactly one of the three termination
statuses, and a result with status `ITERATION_LIMIT` carries telemetry
sequences (elapsed times, primal residual norms, dual residual norms, penalty
parameters) of length exactly `max_iterations`. -/
theorem C7_status_and_iteration_limit_lengths (x0 : X) (y0 : Y) :
    ((ADMM sqrtf minLx minLy A B At inner_product_x inner_product_r c params clock
        x0 y0).status = ADMMStatus.RESIDUAL_TOLERANCE ∨
      (ADMM sqrtf minLx minLy A B At inner_product_x inner_product_r c params clock
        x0 y0).status = ADMMStatus.ITERATION_LIMIT ∨
      (ADMM sqrtf minLx minLy A B At inner_product_x inner_product_r c params clock
        x0 y0).status = ADMMStatus.ELAPSED_TIME) ∧
    ((ADMM sqrtf minLx minLy A B At inner_product_x inner_product_r c params clock
        x0 y0).status = ADMMStatus.ITERATION_LIMIT →
      (ADMM sqrtf minLx minLy A B At inner_product_x inner_product_r c params clock
          x0 y0).time.length = params.max_iterations ∧
      (ADMM sqrtf minLx minLy A B At inner_product_x inner_product_r c params clock
          x0 y0).primal_residuals.length = params.max_iterations ∧
      (ADMM sqrtf minLx minLy A B At inner_product_x inner_product_r c params clock
          x0 y0).dual_residuals.length = params.max_iterations ∧
      (ADMM sqrtf minLx minLy A B At inner_product_x inner_product_r c params clock
          x0 y0).penalty_parameters.length = params.max_iterations) := by
  constructor
  · cases h : (ADMM sqrtf minLx minLy A B At inner_product_x inner_product_r c params
      clock x0 y0).status
    · exact Or.inl rfl
    · exact Or.inr (Or.inl rfl)
    · exact Or.inr (Or.inr rfl)
  · intro hIL
    obtain ⟨h1, h2, h3, h4⟩ := ADMM_loop_IL_lengths sqrtf minLx minLy A B At
      inner_product_x inner_product_r c params clock params.max_iterations 0 _ _
      rfl hIL
    exact ⟨by simpa using h1, by simpa using h2, by simpa using h3, by simpa using h4⟩

/-- C10: a solve that completes no iteration (because `max_iterations = 0`, or
because the time budget is already exceeded at the top of iteration 0) returns
the caller-supplied initial pair as the final iterate with every telemetry
sequence empty; and the first recorded penalty parameter, when one exists,
equals the configured initial rho (each recorded entry is the penalty at its
iteration's start, taken before that iteration's adaptation). -/
theorem C10_no_iteration_result_and_first_penalty (x0 : X) (y0 : Y) :
    (params.max_iterations = 0 →
      (ADMM sqrtf minLx minLy A B At inner_product_x inner_product_r c params clock
          x0 y0).x = (x0, y0) ∧
      (ADMM sqrtf minLx minLy A B At inner_product_x inner_product_r c params clock
          x0 y0).time = [] ∧
      (ADMM sqrtf minLx minLy A B At inner_product_x inner_product_r c params clock
          x0 y0).iterates = [] ∧
      (ADMM sqrtf minLx minLy A B At inner_product_x inner_product_r c params clock
          x0 y0).primal_residuals = [] ∧
      (ADMM sqrtf minLx minLy A B At inner_product_x inner_product_r c params clock
          x0 y0).dual_residuals = [] ∧
      (ADMM sqrtf minLx minLy A B At inner_product_x inner_product_r c params clock
          x0 y0).penalty_parameters = []) ∧
    (clock 0 > params.max_computation_time →
      (ADMM sqrtf minLx minLy A B At inner_product_x inner_product_r c params clock
          x0 y0).x = (x0, y0) ∧
      (ADMM sqrtf minLx minLy A B At inner_product_x inner_product_r c params clock
          x0 y0).time = [] ∧
      (ADMM sqrtf minLx minLy A B At inner_product_x inner_product_r c params clock
          x0 y0).iterates = [] ∧
      (ADMM sqrtf minLx minLy A B At inner_product_x inner_product_r c params clock
          x0 y0).primal_residuals = [] ∧
      (ADMM sqrtf minLx minLy A B At inner_product_x inner_product_r c params clock
          x0 y0).dual_residuals = [] ∧
      (ADMM sqrtf minLx minLy A B At inner_product_x inner_product_r c params clock
          x0 y0).penalty_parameters = []) ∧
    ((ADMM sqrtf minLx minLy A B At inner_product_x inner_product_r c params clock
        x0 y0).penalty_parameters.head? = some params.rho ∨
      (ADMM sqrtf minLx minLy A B At inner_product_x inner_product_r c params clock
        x0 y0).penalty_parameters = []) := by
  refine ⟨?_, ?_, ?_⟩
  · intro h0
    unfold ADMM
    dsimp only
    rw [h0, ADMM_loop_zero]
    exact ⟨rfl, rfl, rfl, rfl, rfl, rfl⟩
  · intro htime
    unfold ADMM
    dsimp only
    cases hmi : params.max_iterations with
    | zero =>
      rw [ADMM_loop_zero]
      exact ⟨rfl, rfl, rfl, rfl, rfl, rfl⟩
    | succ n =>
      rw [ADMM_loop_succ, if_pos htime]
      exact ⟨rfl, rfl, rfl, rfl, rfl, rfl⟩
  · obtain ⟨l, hl, hchain⟩ := ADMM_loop_rhoChain sqrtf minLx minLy A B At
      inner_product_x inner_product_r c params clock params.max_iterations 0
      { x := x0, y := y0, y_prev := y0,
        lambda := params.rho • (A x0 + B y0 - c), rho := params.rho
        lambda_hat := 0
        x_k0 := if params.penalty_adaptation_mode = ADMMPenaltyAdaptation.Spectral
          then x0 else 0
        y_k0 := if params.penalty_adaptation_mode = ADMMPenaltyAdaptation.Spectral
          then y0 else 0
        lambda_k0 :=
          if params.penalty_adaptation_mode = ADMMPenaltyAdaptation.Spectral
          then params.rho • (A x0 + B y0 - c) else 0
        lambda_hat_k0 :=
          if params.penalty_adaptation_mode = ADMMPenaltyAdaptation.Spectral
          then params.rho • (A x0 + B y0 - c) else 0 }
      { status := ADMMStatus.ITERATION_LIMIT, time := [], iterates := [], x := (x0, y0)
        elapsed_time := 0, primal_residuals := [], dual_residuals := []
        penalty_parameters := [] }
    have hEq : (ADMM sqrtf minLx minLy A B At inner_product_x inner_product_r c
        params clock x0 y0).penalty_parameters = l := by
      rw [show (ADMM sqrtf minLx minLy A B At inner_product_x inner_product_r c
        params clock x0 y0).penalty_parameters = _ ++ l from hl]
      simp
    cases hchain with
    | nil =>
      right
      rw [hEq]
    | cons i rho rho' l' hstep htail =>
      left
      rw [hEq]
      rfl

end ClaimTheorems

/-- The witness stand-in square root is nonnegative. -/
theorem sqrtQ_w_nonneg : ∀ q : ℚ, 0 ≤ sqrtQ_w q := by
  intro q
  unfold sqrtQ_w
  split_ifs <;> norm_num

/-- The witness stand-in square root vanishes on nonpositive arguments. -/
theorem sqrtQ_w_nonpos_eq_zero : ∀ q : ℚ, q ≤ 0 → sqrtQ_w q = 0 := by
  intro q hq
  unfold sqrtQ_w
  rw [if_neg (not_lt.mpr hq)]

/-- The witness stand-in square root is positive on positive arguments. -/
theorem sqrtQ_w_pos : ∀ q : ℚ, 0 < q → 0 < sqrtQ_w q := by
  intro q hq
  unfold sqrtQ_w
  rw [if_pos hq]
  norm_num

/-- Witness for C3: a one-iteration solve with the default configuration; the
penalty recorded for iteration 0 is the initial rho 1, and the theorem yields
its positivity. -/
theorem C3_rho_positive_invariant_w :
    (0:ℚ) < 1 ∧ (0:ℚ) < 2 ∧ (0:ℚ) < 1/5 ∧ (0:ℚ) < 1 := by
  refine ⟨by norm_num, by norm_num, by norm_num, ?_⟩
  exact C3_rho_positive_invariant sqrtQ_w (fun _ _ _ _ => (0:ℚ)) (fun _ _ _ _ => (0:ℚ))
    (fun v => v) (fun v => v) (fun v => v) (fun a b => a * b) (fun a b => a * b) 0
    { max_iterations := 1, max_computation_time := 10, log_iterates := false }
    (fun _ => 0) 0 0 (by norm_num) (by norm_num) (by norm_num)
    sqrtQ_w_nonneg sqrtQ_w_nonpos_eq_zero sqrtQ_w_pos 1
    (by norm_num [ADMM, ADMM_loop, ADMM_iteration, sqrtQ_w])

/-- Witness for C4: a three-iteration residual-balancing solve; iteration 1 is
not a multiple of the period, so the penalty recorded for iteration 2 equals
the one recorded for iteration 1; and a no-adaptation solve records the
configured initial rho at iteration 0. -/
theorem C4_adaptation_gating_w :
    (0:ℕ) < 2 ∧
    (ADMM sqrtQ_w (fun _ _ _ _ => (0:ℚ)) (fun _ _ _ _ => (0:ℚ))
        (fun v => v) (fun v => v) (fun v => v) (fun a b => a * b) (fun a b => a * b) 0
        { max_iterations := 3, max_computation_time := 10, log_iterates := false,
          penalty_adaptation_mode := ADMMPenaltyAdaptation.Residual_Balance,
          eps_abs_pri := 0, eps_abs_dual := 0, eps_rel := 0 }
        (fun _ => 0) 0 0).penalty_parameters.get? 2 =
      (ADMM sqrtQ_w (fun _ _ _ _ => (0:ℚ)) (fun _ _ _ _ => (0:ℚ))
        (fun v => v) (fun v => v) (fun v => v) (fun a b => a * b) (fun a b => a * b) 0
        { max_iterations := 3, max_computation_time := 10, log_iterates := false,
          penalty_adaptation_mode := ADMMPenaltyAdaptation.Residual_Balance,
          eps_abs_pri := 0, eps_abs_dual := 0, eps_rel := 0 }
        (fun _ => 0) 0 0).penalty_parameters.get? 1 ∧
    (ADMM sqrtQ_w (fun _ _ _ _ => (0:ℚ)) (fun _ _ _ _ => (0:ℚ))
        (fun v => v) (fun v => v) (fun v => v) (fun a b => a * b) (fun a b => a * b) 0
        { max_iterations := 1, max_computation_time := 10, log_iterates := false }
        (fun _ => 0) 0 0).penalty_parameters.get? 0 = some 1 := by
  have hlen : (ADMM sqrtQ_w (fun _ _ _ _ => (0:ℚ)) (fun _ _ _ _ => (0:ℚ))
      (fun v => v) (fun v => v) (fun v => v) (fun a b => a * b) (fun a b => a * b) 0
      { max_iterations := 3, max_computation_time := 10, log_iterates := false,
        penalty_adaptation_mode := ADMMPenaltyAdaptation.Residual_Balance,
        eps_abs_pri := 0, eps_abs_dual := 0, eps_rel := 0 }
      (fun _ => 0) 0 0).penalty_parameters.length = 3 := by
    norm_num [ADMM, ADMM_loop, ADMM_iteration, sqrtQ_w,
      residual_balance_penalty_parameter_update]
  have hlen1 : (ADMM sqrtQ_w (fun _ _ _ _ => (0:ℚ)) (fun _ _ _ _ => (0:ℚ))
      (fun v => v) (fun v => v) (fun v => v) (fun a b => a * b) (fun a b => a * b) 0
      { max_iterations := 1, max_computation_time := 10, log_iterates := false }
      (fun _ => 0) 0 0).penalty_parameters.length = 1 := by
    norm_num [ADMM, ADMM_loop, ADMM_iteration, sqrtQ_w]
  have h1 := (C4_adaptation_gating sqrtQ_w (fun _ _ _ _ => (0:ℚ)) (fun _ _ _ _ => (0:ℚ))
    (fun v => v) (fun v => v) (fun v => v) (fun a b => a * b) (fun a b => a * b) 0
    { max_iterations := 3, max_computation_time := 10, log_iterates := false,
      penalty_adaptation_mode := ADMMPenaltyAdaptation.Residual_Balance,
      eps_abs_pri := 0, eps_abs_dual := 0, eps_rel := 0 }
    (fun _ => 0) 0 0 (by norm_num)).1 (by decide) 1 (by rw [hlen]; norm_num)
    (by norm_num)
  have h2 := (C4_adaptation_gating sqrtQ_w (fun _ _ _ _ => (0:ℚ)) (fun _ _ _ _ => (0:ℚ))
    (fun v => v) (fun v => v) (fun v => v) (fun a b => a * b) (fun a b => a * b) 0
    { max_iterations := 1, max_computation_time := 10, log_iterates := false }
    (fun _ => 0) 0 0 (by norm_num)).2 rfl 0 (by rw [hlen1]; norm_num)
  refine ⟨by norm_num, ?_, ?_⟩
  · rw [List.get?_eq_get (by rw [hlen]; norm_num),
      List.get?_eq_get (by rw [hlen]; norm_num), h1]
  · rw [List.get?_eq_get (by rw [hlen1]; norm_num), h2]

/-- Witness for C5: with an all-zero problem and the default tolerances, the
first loop iteration satisfies the residual stopping test, and the loop indeed
terminates there with `RESIDUAL_TOLERANCE` and exactly one telemetry entry. -/
theorem C5_residual_tolerance_iff_w :
    ((⟨ADMMStatus.ITERATION_LIMIT, [], [], ((0:ℚ), (0:ℚ)), 0, [], [], []⟩ :
        ADMMResult ℚ ℚ).status ≠ ADMMStatus.RESIDUAL_TOLERANCE) ∧
    (¬ (fun _ => (0:ℚ)) 0 >
      ({ max_iterations := 1, max_computation_time := 10, log_iterates := false } :
        ADMMParams).max_computation_time) ∧
    ((ADMM_loop sqrtQ_w (fun _ _ _ _ => (0:ℚ)) (fun _ _ _ _ => (0:ℚ))
        (fun v => v) (fun v => v) (fun v => v) (fun a b => a * b) (fun a b => a * b) 0
        { max_iterations := 1, max_computation_time := 10, log_iterates := false }
        (fun _ => 0) 0 (0 + 1)
        ⟨0, 0, 0, 0, 1, 0, 0, 0, 0, 0⟩
        ⟨ADMMStatus.ITERATION_LIMIT, [], [], ((0:ℚ), (0:ℚ)), 0, [], [], []⟩).1.status =
          ADMMStatus.RESIDUAL_TOLERANCE ∧
      (ADMM_loop sqrtQ_w (fun _ _ _ _ => (0:ℚ)) (fun _ _ _ _ => (0:ℚ))
        (fun v => v) (fun v => v) (fun v => v) (fun a b => a * b) (fun a b => a * b) 0
        { max_iterations := 1, max_computation_time := 10, log_iterates := false }
        (fun _ => 0) 0 (0 + 1)
        ⟨0, 0, 0, 0, 1, 0, 0, 0, 0, 0⟩
        ⟨ADMMStatus.ITERATION_LIMIT, [], [], ((0:ℚ), (0:ℚ)), 0, [], [], []⟩).1.time.length =
          1) := by
  refine ⟨by decide, by norm_num, ?_⟩
  exact (C5_residual_tolerance_iff sqrtQ_w (fun _ _ _ _ => (0:ℚ)) (fun _ _ _ _ => (0:ℚ))
    (fun v => v) (fun v => v) (fun v => v) (fun a b => a * b) (fun a b => a * b) 0
    { max_iterations := 1, max_computation_time := 10, log_iterates := false }
    (fun _ => 0) 0 0
    ⟨0, 0, 0, 0, 1, 0, 0, 0, 0, 0⟩
    ⟨ADMMStatus.ITERATION_LIMIT, [], [], ((0:ℚ), (0:ℚ)), 0, [], [], []⟩
    (by decide) (by norm_num)).mpr (by norm_num [sqrtQ_w])

/-- Witness for C6: with the elapsed time over budget at the top of iteration
3, the loop returns immediately with `ELAPSED_TIME`, its state and accumulated
output untouched. -/
theorem C6_elapsed_time_break_first_w :
    ((fun _ => (100:ℚ)) 3 >
      ({ max_iterations := 5, max_computation_time := 10, log_iterates := false } :
        ADMMParams).max_computation_time) ∧
    ADMM_loop sqrtQ_w (fun _ _ _ _ => (0:ℚ)) (fun _ _ _ _ => (0:ℚ))
        (fun v => v) (fun v => v) (fun v => v) (fun a b => a * b) (fun a b => a * b) 0
        { max_iterations := 5, max_computation_time := 10, log_iterates := false }
        (fun _ => 100) 3 (0 + 1)
        ⟨0, 0, 0, 0, 1, 0, 0, 0, 0, 0⟩
        ⟨ADMMStatus.ITERATION_LIMIT, [0], [], ((0:ℚ), (0:ℚ)), 0, [0], [0], [1]⟩ =
      (⟨ADMMStatus.ELAPSED_TIME, [0], [], ((0:ℚ), (0:ℚ)), 0, [0], [0], [1]⟩,
        ⟨0, 0, 0, 0, 1, 0, 0, 0, 0, 0⟩, 3 + 1) := by
  refine ⟨by norm_num, ?_⟩
  exact C6_elapsed_time_break_first sqrtQ_w (fun _ _ _ _ => (0:ℚ)) (fun _ _ _ _ => (0:ℚ))
    (fun v => v) (fun v => v) (fun v => v) (fun a b => a * b) (fun a b => a * b) 0
    { max_iterations := 5, max_computation_time := 10, log_iterates := false }
    (fun _ => 100) 3 0
    ⟨0, 0, 0, 0, 1, 0, 0, 0, 0, 0⟩
    ⟨ADMMStatus.ITERATION_LIMIT, [0], [], ((0:ℚ), (0:ℚ)), 0, [0], [0], [1]⟩
    (by norm_num)

/-- Witness for C7: a two-iteration solve with zero tolerances never meets the
residual test, exhausts its iteration budget with status `ITERATION_LIMIT`,
and each telemetry sequence has length `max_iterations = 2`. -/
theorem C7_status_and_iteration_limit_lengths_w :
    (ADMM sqrtQ_w (fun _ _ _ _ => (0:ℚ)) (fun _ _ _ _ => (0:ℚ))
        (fun v => v) (fun v => v) (fun v => v) (fun a b => a * b) (fun a b => a * b) 0
        { max_iterations := 2, max_computation_time := 10, log_iterates := false,
          eps_abs_pri := 0, eps_abs_dual := 0, eps_rel := 0 }
        (fun _ => 0) 0 0).status = ADMMStatus.ITERATION_LIMIT ∧
    ((ADMM sqrtQ_w (fun _ _ _ _ => (0:ℚ)) (fun _ _ _ _ => (0:ℚ))
        (fun v => v) (fun v => v) (fun v => v) (fun a b => a * b) (fun a b => a * b) 0
        { max_iterations := 2, max_computation_time := 10, log_iterates := false,
          eps_abs_pri := 0, eps_abs_dual := 0, eps_rel := 0 }
        (fun _ => 0) 0 0).time.length = 2 ∧
      (ADMM sqrtQ_w (fun _ _ _ _ => (0:ℚ)) (fun _ _ _ _ => (0:ℚ))
        (fun v => v) (fun v => v) (fun v => v) (fun a b => a * b) (fun a b => a * b) 0
        { max_iterations := 2, max_computation_time := 10, log_iterates := false,
          eps_abs_pri := 0, eps_abs_dual := 0, eps_rel := 0 }
        (fun _ => 0) 0 0).primal_residuals.length = 2 ∧
      (ADMM sqrtQ_w (fun _ _ _ _ => (0:ℚ)) (fun _ _ _ _ => (0:ℚ))
        (fun v => v) (fun v => v) (fun v => v) (fun a b => a * b) (fun a b => a * b) 0
        { max_iterations := 2, max_computation_time := 10, log_iterates := false,
          eps_abs_pri := 0, eps_abs_dual := 0, eps_rel := 0 }
        (fun _ => 0) 0 0).dual_residuals.length = 2 ∧
      (ADMM sqrtQ_w (fun _ _ _ _ => (0:ℚ)) (fun _ _ _ _ => (0:ℚ))
        (fun v => v) (fun v => v) (fun v => v) (fun a b => a * b) (fun a b => a * b) 0
        { max_iterations := 2, max_computation_time := 10, log_iterates := false,
          eps_abs_pri := 0, eps_abs_dual := 0, eps_rel := 0 }
        (fun _ => 0) 0 0).penalty_parameters.length = 2) := by
  have hIL : (ADMM sqrtQ_w (fun _ _ _ _ => (0:ℚ)) (fun _ _ _ _ => (0:ℚ))
      (fun v => v) (fun v => v) (fun v => v) (fun a b => a * b) (fun a b => a * b) 0
      { max_iterations := 2, max_computation_time := 10, log_iterates := false,
        eps_abs_pri := 0, eps_abs_dual := 0, eps_rel := 0 }
      (fun _ => 0) 0 0).status = ADMMStatus.ITERATION_LIMIT := by
    norm_num [ADMM, ADMM_loop, ADMM_iteration, sqrtQ_w]
  exact ⟨hIL, (C7_status_and_iteration_limit_lengths sqrtQ_w (fun _ _ _ _ => (0:ℚ))
    (fun _ _ _ _ => (0:ℚ)) (fun v => v) (fun v => v) (fun v => v) (fun a b => a * b)
    (fun a b => a * b) 0
    { max_iterations := 2, max_computation_time := 10, log_iterates := false,
      eps_abs_pri := 0, eps_abs_dual := 0, eps_rel := 0 }
    (fun _ => 0) 0 0).2 hIL⟩

/-- Witness for C10: a solve with a zero iteration budget and an exceeded time
budget returns the initial pair with empty telemetry, and its recorded
penalty-parameter sequence is empty. -/
theorem C10_no_iteration_result_and_first_penalty_w :
    (({ max_iterations := 0, max_computation_time := 10, log_iterates := false } :
        ADMMParams).max_iterations = 0) ∧
    ((fun _ => (100:ℚ)) 0 >
      ({ max_iterations := 0, max_computation_time := 10, log_iterates := false } :
        ADMMParams).max_computation_time) ∧
    ((ADMM sqrtQ_w (fun _ _ _ _ => (0:ℚ)) (fun _ _ _ _ => (0:ℚ))
        (fun v => v) (fun v => v) (fun v => v) (fun a b => a * b) (fun a b => a * b) 0
        { max_iterations := 0, max_computation_time := 10, log_iterates := false }
        (fun _ => 100) 0 0).x = ((0:ℚ), (0:ℚ)) ∧
      (ADMM sqrtQ_w (fun _ _ _ _ => (0:ℚ)) (fun _ _ _ _ => (0:ℚ))
        (fun v => v) (fun v => v) (fun v => v) (fun a b => a * b) (fun a b => a * b) 0
        { max_iterations := 0, max_computation_time := 10, log_iterates := false }
        (fun _ => 100) 0 0).time = [] ∧
      (ADMM sqrtQ_w (fun _ _ _ _ => (0:ℚ)) (fun _ _ _ _ => (0:ℚ))
        (fun v => v) (fun v => v) (fun v => v) (fun a b => a * b) (fun a b => a * b) 0
        { max_iterations := 0, max_computation_time := 10, log_iterates := false }
        (fun _ => 100) 0 0).iterates = [] ∧
      (ADMM sqrtQ_w (fun _ _ _ _ => (0:ℚ)) (fun _ _ _ _ => (0:ℚ))
        (fun v => v) (fun v => v) (fun v => v) (fun a b => a * b) (fun a b => a * b) 0
        { max_iterations := 0, max_computation_time := 10, log_iterates := false }
        (fun _ => 100) 0 0).primal_residuals = [] ∧
      (ADMM sqrtQ_w (fun _ _ _ _ => (0:ℚ)) (fun _ _ _ _ => (0:ℚ))
        (fun v => v) (fun v => v) (fun v => v) (fun a b => a * b) (fun a b => a * b) 0
        { max_iterations := 0, max_computation_time := 10, log_iterates := false }
        (fun _ => 100) 0 0).dual_residuals = [] ∧
      (ADMM sqrtQ_w (fun _ _ _ _ => (0:ℚ)) (fun _ _ _ _ => (0:ℚ))
        (fun v => v) (fun v => v) (fun v => v) (fun a b => a * b) (fun a b => a * b) 0
        { max_iterations := 0, max_computation_time := 10, log_iterates := false }
        (fun _ => 100) 0 0).penalty_parameters = []) ∧
    ((ADMM sqrtQ_w (fun _ _ _ _ => (0:ℚ)) (fun _ _ _ _ => (0:ℚ))
        (fun v => v) (fun v => v) (fun v => v) (fun a b => a * b) (fun a b => a * b) 0
        { max_iterations := 0, max_computation_time := 10, log_iterates := false }
        (fun _ => 100) 0 0).penalty_parameters.head? = some 1 ∨
      (ADMM sqrtQ_w (fun _ _ _ _ => (0:ℚ)) (fun _ _ _ _ => (0:ℚ))
        (fun v => v) (fun v => v) (fun v => v) (fun a b => a * b) (fun a b => a * b) 0
        { max_iterations := 0, max_computation_time := 10, log_iterates := false }
        (fun _ => 100) 0 0).penalty_parameters = []) := by
  refine ⟨rfl, by norm_num, ?_, ?_⟩
  · exact (C10_no_iteration_result_and_first_penalty sqrtQ_w (fun _ _ _ _ => (0:ℚ))
      (fun _ _ _ _ => (0:ℚ)) (fun v => v) (fun v => v) (fun v => v) (fun a b => a * b)
      (fun a b => a * b) 0
      { max_iterations := 0, max_computation_time := 10, log_iterates := false }
      (fun _ => 100) 0 0).1 rfl
  · exact (C10_no_iteration_result_and_first_penalty sqrtQ_w (fun _ _ _ _ => (0:ℚ))
      (fun _ _ _ _ => (0:ℚ)) (fun v => v) (fun v => v) (fun v => v) (fun a b => a * b)
      (fun a b => a * b) 0
      { max_iterations := 0, max_computation_time := 10, log_iterates := false }
      (fun _ => 100) 0 0).2.2

end Convex
end Optimization
